import Mathlib

set_option maxRecDepth 16384

/-!
Verification of `tools/analyze_and_generate.py`.

The script is a linear pipeline: detect the project's ecosystem from marker
files, select a template bundle for the detected tag, substitute placeholder
tokens, and write three CI artifacts plus a `report.txt` into the fixed
output directory `.ci-generated/`.

The embedding below models:
  * the project root as a record of the observable filesystem behaviour the
    script depends on (top-level file listing, existence checks, text reads
    that may fail, and a JSON-parse oracle for `package.json`);
  * `detect_language`, `choose_templates`, `render_template` and the body of
    `main` as pure Lean functions;
  * the filesystem effect of `main` as an ordered list of (path, content)
    writes, applied to a map from path to content.

Machine-specific aspects that are irrelevant to the claims (absolute path
prefixes, the exact `repr` escaping Python applies inside the
`found_files:` report line, Unicode corner cases of `str.lower`-free code)
are modelled in the simplest faithful way and noted at each definition.
-/

/-- The opening-brace character, written via its code point so that template
tokens can be built without brace literals in strings. -/
def obr : Char := Char.ofNat 123

/-- The closing-brace character. -/
def cbr : Char := Char.ofNat 125

/-- Single-quote character used by Python `repr` of a string. -/
def sqChar : Char := Char.ofNat 39

/-- Result of `json.loads` on `package.json` as far as the script consumes
it: `pkg.get("name")`, `pkg.get("scripts", {})`, `pkg.get("engines")`.
The parse itself is an oracle on the project root (see `RootDir.parseJson`);
a JSON document whose top level is not an object, or whose fields have
unexpected types, is modelled as a parse failure, matching the `except`
that catches the resulting `AttributeError`/`json.JSONDecodeError`. -/
structure PkgJson where
  name : Option String
  scripts : List (String × String)
  engines : Option String

/-- Observable behaviour of the project root directory:
`files` is the set of top-level regular-file names seen by
`root.glob("*")`; `exists_ f` is `(root / f).exists()`;
`readText f` is `(root / f).read_text(...)`, `.error ()` when the read
raises; `parseJson s` is the outcome of `json.loads(s)` projected to the
fields the script uses. -/
structure RootDir where
  files : List String
  exists_ : String → Bool
  readText : String → Except Unit String
  parseJson : String → Except Unit PkgJson

/-- Values stored in the `details` dict: Python `None`, a string, or a dict
(the `scripts` entry). -/
inductive DetailValue
  | vnone
  | vstr (s : String)
  | vdict (d : List (String × String))
deriving DecidableEq

/-- Return value of `detect_language`: the dict
`{"language": ..., "details": ..., "found_files": ...}`. The `language`
field is `None` only transiently in the source; every return path has set
it, so it is modelled as a `String`. -/
structure DetectionResult where
  language : String
  details : List (String × DetailValue)
  found_files : List String
deriving DecidableEq

/-- Insert a string into a sorted list (ascending code-point order, matching
Python `sorted` on `str`). -/
def insertStr (x : String) : List String → List String
  | [] => [x]
  | y :: ys => if x ≤ y then x :: y :: ys else y :: insertStr x ys

/-- Insertion sort on strings, modelling Python `sorted(list(files))`. -/
def sortStr : List String → List String
  | [] => []
  | x :: xs => insertStr x (sortStr xs)

/-- Leftmost regular-expression search for `openT ([^<]+) closeT` where both
delimiters are literal tags beginning with the character excluded from the
capture class, as in
`re.search(r"<maven\.compiler\.source>([^<]+)</maven\.compiler\.source>", content)`.
At each start position: if the text starts with `openT`, take the maximal
run of non-`<` characters after it; the match succeeds exactly when that
run is nonempty and immediately followed by `closeT` (greedy `[^<]+` cannot
backtrack into a successful shorter match because `closeT` starts with
`<`). -/
def searchCapture (openT closeT : List Char) : List Char → Option (List Char)
  | [] => none
  | c :: cs =>
    if openT.isPrefixOf (c :: cs) then
      let after := (c :: cs).drop openT.length
      let cap := after.takeWhile (fun d => d ≠ '<')
      if cap ≠ [] ∧ closeT.isPrefixOf (after.drop cap.length) then some cap
      else searchCapture openT closeT cs
    else searchCapture openT closeT cs

/-- Python `\s` on the characters relevant to ASCII manifests. -/
def isPySpace (c : Char) : Bool :=
  c == ' ' || c == '\t' || c == '\n' || c == '\r' || c == '\x0b' || c == '\x0c'

/-- Match `python\s*=\s*"([^"]+)"` anchored at the start of `s`, as used on
`pyproject.toml`. Greedy `\s*` runs cannot backtrack usefully because the
following literal (`=`, `"`) is not a space, and greedy `[^"]+` cannot
because the closing literal is `"`. -/
def matchPythonRequiresAt (s : List Char) : Option (List Char) :=
  if ("python".data).isPrefixOf s then
    match (s.drop 6).dropWhile isPySpace with
    | '=' :: r2 =>
      match r2.dropWhile isPySpace with
      | '"' :: r4 =>
        let cap := r4.takeWhile (fun d => d ≠ '"')
        if cap ≠ [] ∧ (r4.drop cap.length).head? = some '"' then some cap else none
      | _ => none
    | _ => none
  else none

/-- Leftmost search for `python\s*=\s*"([^"]+)"` over the whole text. -/
def searchPythonRequires : List Char → Option (List Char)
  | [] => none
  | c :: cs =>
    match matchPythonRequiresAt (c :: cs) with
    | some cap => some cap
    | none => searchPythonRequires cs

/-- Characters Python `str.splitlines` treats as line boundaries. -/
def isLineBreak (c : Char) : Bool :=
  c == '\n' || c == '\r' || c == '\x0b' || c == '\x0c' ||
  c == '\x1c' || c == '\x1d' || c == '\x1e' || c == '\x85' ||
  c == '\u2028' || c == '\u2029'

/-- Python `s.splitlines()[0]`: `none` models the `IndexError` raised on an
empty text (caught by the caller), otherwise the prefix up to the first
line boundary. -/
def splitlinesFirst (s : String) : Option String :=
  match s.data with
  | [] => none
  | l => some (String.mk (l.takeWhile (fun c => !isLineBreak c)))

/-- Wrap an optional captured string as the Python value stored in
`details` (`m.group(1) if m else None`). -/
def optDetail : Option (List Char) → DetailValue
  | some c => DetailValue.vstr (String.mk c)
  | none => DetailValue.vnone

/-- Details recorded by the `except` arm of the `package.json` branch:
`{"name": None, "scripts": {}, "engines": None}`. -/
def nodeErrDetails : List (String × DetailValue) :=
  [("name", DetailValue.vnone), ("scripts", DetailValue.vdict []),
   ("engines", DetailValue.vnone)]

/-- Details from a successfully parsed `package.json`. -/
def nodeOkDetails (pkg : PkgJson) : List (String × DetailValue) :=
  [("name", match pkg.name with | some s => DetailValue.vstr s | none => DetailValue.vnone),
   ("scripts", DetailValue.vdict pkg.scripts),
   ("engines", match pkg.engines with | some s => DetailValue.vstr s | none => DetailValue.vnone)]

/-- Embedding of `detect_language(root)` (lines 21-67): fixed-priority
marker checks with one best-effort auxiliary extraction per ecosystem, all
read/parse failures caught locally. -/
def detect_language (root : RootDir) : DetectionResult :=
  let found := sortStr root.files.dedup
  if root.exists_ "pom.xml" || root.exists_ "build.gradle" || root.exists_ "build.gradle.kts" then
    let details :=
      if root.exists_ "pom.xml" then
        match root.readText "pom.xml" with
        | Except.ok content =>
          let m :=
            match searchCapture "<maven.compiler.source>".data "</maven.compiler.source>".data content.data with
            | some cap => some cap
            | none => searchCapture "<java.version>".data "</java.version>".data content.data
          [("java_version", optDetail m)]
        | Except.error _ => [("java_version", DetailValue.vnone)]
      else []
    ⟨"java", details, found⟩
  else if root.exists_ "go.mod" then
    let d :=
      match root.readText "go.mod" with
      | Except.ok content =>
        match splitlinesFirst content with
        | some first => DetailValue.vstr first
        | none => DetailValue.vnone
      | Except.error _ => DetailValue.vnone
    ⟨"go", [("go_mod_first", d)], found⟩
  else if root.exists_ "package.json" then
    let details :=
      match root.readText "package.json" with
      | Except.ok content =>
        match root.parseJson content with
        | Except.ok pkg => nodeOkDetails pkg
        | Except.error _ => nodeErrDetails
      | Except.error _ => nodeErrDetails
    ⟨"node", details, found⟩
  else if root.exists_ "pyproject.toml" || root.exists_ "requirements.txt" || root.exists_ "setup.py" then
    let details :=
      if root.exists_ "pyproject.toml" then
        match root.readText "pyproject.toml" with
        | Except.ok txt => [("python_requires", optDetail (searchPythonRequires txt.data))]
        | Except.error _ => [("python_requires", DetailValue.vnone)]
      else []
    ⟨"python", details, found⟩
  else
    ⟨"unknown", [], found⟩

/-- A template bundle: three template paths (modelled relative to the
`TEMPLATES` directory, whose absolute location is irrelevant to the
claims) plus the default commands and cache hint. -/
structure TemplateBundle where
  docker : String
  jenkins : String
  gitlab : String
  build_cmd : String
  test_cmd : String
  cache : String
deriving DecidableEq

/-- Embedding of `choose_templates(lang)` (lines 69-105): the static
`map_` table; `map_.get(lang)` is `none` off the table. -/
def choose_templates (lang : String) : Option TemplateBundle :=
  if lang = "java" then
    some { docker := "docker/Dockerfile.java", jenkins := "jenkins/Jenkinsfile.java",
           gitlab := "gitlab/.gitlab-ci.java.yml",
           build_cmd := "mvn -B -DskipTests=false clean package",
           test_cmd := "mvn test", cache := "~/.m2/repository" }
  else if lang = "go" then
    some { docker := "docker/Dockerfile.go", jenkins := "jenkins/Jenkinsfile.go",
           gitlab := "gitlab/.gitlab-ci.go.yml",
           build_cmd := "go build -v ./...",
           test_cmd := "go test ./...", cache := "$GOMODCACHE" }
  else if lang = "node" then
    some { docker := "docker/Dockerfile.node", jenkins := "jenkins/Jenkinsfile.node",
           gitlab := "gitlab/.gitlab-ci.node.yml",
           build_cmd := "npm ci && npm run build || true",
           test_cmd := "npm test", cache := "~/.npm" }
  else if lang = "python" then
    some { docker := "docker/Dockerfile.python", jenkins := "jenkins/Jenkinsfile.python",
           gitlab := "gitlab/.gitlab-ci.python.yml",
           build_cmd := "python -m pip install -r requirements.txt --user",
           test_cmd := "pytest -q", cache := "~/.cache/pip" }
  else none

/-- The fallback bundle assigned in `main` when `choose_templates` returned
a falsy value (lines 125-132). -/
def genericBundle : TemplateBundle :=
  { docker := "docker/Dockerfile.generic", jenkins := "jenkins/Jenkinsfile.generic",
    gitlab := "gitlab/.gitlab-ci.generic.yml",
    build_cmd := "echo \"No build configured\"",
    test_cmd := "echo \"No tests configured\"", cache := "" }

/-- Bundle actually used by `main` for a tag: the table entry, or the
generic fallback. -/
def effectiveBundle (lang : String) : TemplateBundle :=
  (choose_templates lang).getD genericBundle

/-- One pass of Python `s.replace(pat, rep)` on character lists (leftmost,
non-overlapping, the replacement text is not rescanned). The counter skips
the remaining characters of a matched pattern; the list argument shrinks at
every call, so the recursion is structural. `pat` is always a placeholder
token here, hence nonempty. -/
def replaceAux (pat rep : List Char) : Nat → List Char → List Char
  | _, [] => []
  | n + 1, _ :: cs => replaceAux pat rep n cs
  | 0, c :: cs =>
    if pat.isPrefixOf (c :: cs) then rep ++ replaceAux pat rep (pat.length - 1) cs
    else c :: replaceAux pat rep 0 cs

/-- The placeholder token for key `k`: doubled braces around the key, as
built by `"{{"+k+"}}"` in the source. -/
def tokenOf (k : List Char) : List Char := obr :: obr :: (k ++ [cbr, cbr])

/-- Substitution context at character level. -/
def ctxOf (vars : List (String × String)) : List (List Char × List Char) :=
  vars.map (fun kv => (kv.1.data, kv.2.data))

/-- The loop `for k, v in vars.items(): s = s.replace("{{"+k+"}}", str(v))`
(lines 111-112): sequential replacement in context order. -/
def applyVarsL (ctx : List (List Char × List Char)) (s : List Char) : List Char :=
  ctx.foldl (fun acc kv => replaceAux (tokenOf kv.1) kv.2 0 acc) s

/-- String-level wrapper of the substitution loop. -/
def applyVars (vars : List (String × String)) (s : String) : String :=
  String.mk (applyVarsL (ctxOf vars) s.data)

/-- Embedding of `render_template(path, vars)` (lines 107-113). `store`
maps a template path to its text when the file exists; `none` models both
a falsy `path` and a missing file, the two cases of
`if not path or not path.exists(): return None`. -/
def render_template (store : String → Option String) (path : Option String)
    (vars : List (String × String)) : Option String :=
  match path with
  | none => none
  | some p =>
    match store p with
    | none => none
    | some s => some (applyVars vars s)

/-- Environment variables the script consults, `none` when unset. -/
structure Env where
  ci_registry_image : Option String
  sonar_host : Option String
  nexus_url : Option String

/-- Python `x or default` for an optional string: the default is taken when
the value is missing (`None`) or falsy (the empty string). -/
def pyOrStr : Option String → String → String
  | some s, d => if s = "" then d else s
  | none, d => d

/-- Python `os.environ.get(k, default)`: the default is taken only when the
variable is unset; a set-but-empty value is returned as is. -/
def pyGetD : Option String → String → String
  | some s, _ => s
  | none, d => d

/-- Look a key up in a `details` dict, yielding a string value when the
entry is present and a string (`None` and missing both yield `none`). -/
def detailStr (details : List (String × DetailValue)) (k : String) : Option String :=
  match details.lookup k with
  | some (DetailValue.vstr s) => some s
  | _ => none

/-- The `project_name` computed in `main` (line 135):
`info.get("details", {}).get("name") or "local-project"`. -/
def project_name_of (info : DetectionResult) : String :=
  pyOrStr (detailStr info.details "name") "local-project"

/-- The `IMAGE_NAME` entry of `vars` (line 141):
`os.environ.get("CI_REGISTRY_IMAGE") or f"{project_name}:latest"`. -/
def image_name_of (info : DetectionResult) (env : Env) : String :=
  pyOrStr env.ci_registry_image (project_name_of info ++ ":latest")

/-- The six-key dict literal passed to `render_template` inside the output
loop (lines 155-162). `PROJECT_NAME` and the detail keys are present in
the enclosing `vars` dict (lines 136-145) but are not part of this dict. -/
def renderVars (tpl : TemplateBundle) (info : DetectionResult) (env : Env) :
    List (String × String) :=
  [("BUILD_CMD", tpl.build_cmd),
   ("TEST_CMD", tpl.test_cmd),
   ("CACHE_DIR", tpl.cache),
   ("IMAGE_NAME", image_name_of info env),
   ("SONAR_HOST", pyGetD env.sonar_host "http://sonarqube:9000"),
   ("NEXUS_URL", pyGetD env.nexus_url "http://nexus:8081")]

/-- Python `repr` of a string as it appears inside the printed list; quote
escaping never fires for the file names at issue and is not modelled. -/
def pyStrRepr (s : String) : String :=
  String.mk (sqChar :: s.data ++ [sqChar])

/-- Python `str` of a list of strings, as interpolated into the
`found_files:` report line. -/
def pyListRepr (xs : List String) : String :=
  "[" ++ String.intercalate ", " (xs.map pyStrRepr) ++ "]"

/-- Outcome of one iteration of the output loop (lines 153-167) for one
kind: the writes it performs (zero or one) and the report lines it
appends. `outP` is the fixed output path, `key` the dict key. -/
def kindResult (store : String → Option String) (vars : List (String × String))
    (tplPath : String) (outP : String) (key : String) :
    List (String × String) × List String :=
  match render_template store (some tplPath) vars with
  | none => ([], ["Template for " ++ key ++ " not found: " ++ tplPath])
  | some content => ([(outP, content)], ["Wrote " ++ outP])

/-- Fixed output paths (lines 147-151), relative to the working directory;
`OUT` is `./.ci-generated`. -/
def outDocker : String := ".ci-generated/Dockerfile"

/-- Output path of the `jenkins` kind. -/
def outJenkins : String := ".ci-generated/Jenkinsfile"

/-- Output path of the `gitlab` kind. -/
def outGitlab : String := ".ci-generated/.gitlab-ci.yml"

/-- Output path of the run report. -/
def outReport : String := ".ci-generated/report.txt"

/-- The writes performed by one iteration-free unrolling of `main`
(lines 115-169), in program order, paired with the report lines. The
`outputs` dict iterates in insertion order `docker`, `jenkins`, `gitlab`;
the report is written last. Console prints are not modelled. -/
def mainParts (root : RootDir) (store : String → Option String) (env : Env) :
    List (String × String) × List String :=
  let info := detect_language root
  let tplOpt := choose_templates info.language
  let tpl := tplOpt.getD genericBundle
  let vars := renderVars tpl info env
  let rd := kindResult store vars tpl.docker outDocker "docker"
  let rj := kindResult store vars tpl.jenkins outJenkins "jenkins"
  let rg := kindResult store vars tpl.gitlab outGitlab "gitlab"
  let reportLines :=
    ["language: " ++ info.language,
     "found_files: " ++ pyListRepr info.found_files] ++
    (if tplOpt.isNone then
       ["No built-in template for detected language. Provide justification to add support."]
     else []) ++
    rd.2 ++ rj.2 ++ rg.2
  (rd.1 ++ rj.1 ++ rg.1, reportLines)

/-- The report lines of a run, in order. -/
def main_reportLines (root : RootDir) (store : String → Option String) (env : Env) :
    List String :=
  (mainParts root store env).2

/-- All filesystem writes of a run, in order: the rendered outputs followed
by `report.txt` (joined with newlines, line 169). -/
def main_run (root : RootDir) (store : String → Option String) (env : Env) :
    List (String × String) :=
  (mainParts root store env).1 ++
  [(outReport, String.intercalate "\n" (main_reportLines root store env))]

/-- Overwrite one file in a path-to-content map (`write_text` semantics). -/
def fsWrite (fs : String → Option String) (w : String × String) :
    String → Option String :=
  fun q => if q = w.1 then some w.2 else fs q

/-- Apply a list of writes in order to a filesystem state. -/
def applyWrites (ws : List (String × String)) (fs : String → Option String) :
    String → Option String :=
  ws.foldl fsWrite fs

/-- Content of the last write to `p` in `ws`, if any. -/
def lastWrite (ws : List (String × String)) (p : String) : Option String :=
  ws.foldl (fun acc w => if w.1 = p then some w.2 else acc) none

/-- The marker-priority classification on its own: `detect_language`'s tag
as a function of the existence checks only (lines 28, 39, 46, 55, 65). -/
def markerTag (e : String → Bool) : String :=
  if e "pom.xml" || e "build.gradle" || e "build.gradle.kts" then "java"
  else if e "go.mod" then "go"
  else if e "package.json" then "node"
  else if e "pyproject.toml" || e "requirements.txt" || e "setup.py" then "python"
  else "unknown"

/-- A template text split into literal text runs and placeholder tokens;
`flattenSegs` recovers the raw text. Used to state what the spec means by
replacing tokens: a well-braced template is one that is such an
alternation with brace-free text runs and brace-free nonempty token
names. -/
inductive Seg
  | text (s : List Char)
  | tok (n : List Char)
deriving DecidableEq

/-- Raw text of a segment list. -/
def flattenSegs : List Seg → List Char
  | [] => []
  | Seg.text s :: rest => s ++ flattenSegs rest
  | Seg.tok n :: rest => tokenOf n ++ flattenSegs rest

/-- A character list with no brace characters. -/
def braceFree (s : List Char) : Prop := ∀ c ∈ s, c ≠ obr ∧ c ≠ cbr

instance (s : List Char) : Decidable (braceFree s) :=
  inferInstanceAs (Decidable (∀ c ∈ s, c ≠ obr ∧ c ≠ cbr))

/-- Well-formedness of one segment: text runs are brace-free; token names
are brace-free and nonempty. -/
def WFSeg : Seg → Prop
  | Seg.text s => braceFree s
  | Seg.tok n => braceFree n ∧ n ≠ []

instance : ∀ sg : Seg, Decidable (WFSeg sg)
  | Seg.text s => inferInstanceAs (Decidable (braceFree s))
  | Seg.tok n => inferInstanceAs (Decidable (braceFree n ∧ n ≠ []))

/-- A well-formed substitution context: brace-free nonempty keys and
brace-free values. -/
def WFCtx (ctx : List (List Char × List Char)) : Prop :=
  ∀ kv ∈ ctx, braceFree kv.1 ∧ kv.1 ≠ [] ∧ braceFree kv.2

instance (ctx : List (List Char × List Char)) : Decidable (WFCtx ctx) :=
  inferInstanceAs (Decidable (∀ kv ∈ ctx, braceFree kv.1 ∧ kv.1 ≠ [] ∧ braceFree kv.2))

/-- Effect of one replacement pass on one segment: the token whose name is
the key becomes literal text holding the value. -/
def replaceTok (k v : List Char) : Seg → Seg
  | Seg.text s => Seg.text s
  | Seg.tok n => if n = k then Seg.text v else Seg.tok n

/-- Modelled from the spec: simultaneous substitution on one segment —
"replace every occurrence of each recognized placeholder token with its
string value (unrecognized placeholders are left untouched)". A token is
replaced by the value of its first binding in the context; text runs and
unbound tokens are unchanged. -/
def substSeg (ctx : List (List Char × List Char)) : Seg → Seg
  | Seg.text s => Seg.text s
  | Seg.tok n =>
    match ctx.lookup n with
    | some v => Seg.text v
    | none => Seg.tok n

/-- Environment with none of the three variables set. -/
def envNone : Env := { ci_registry_image := none, sonar_host := none, nexus_url := none }

/-- Template store with no template files present. -/
def storeEmpty : String → Option String := fun _ => none

/-- Project root whose only marker is `go.mod`; reading it raises. -/
def rexGo : RootDir :=
  { files := ["go.mod"], exists_ := fun f => f == "go.mod",
    readText := fun _ => Except.error (), parseJson := fun _ => Except.error () }

/-- Project root containing both `pom.xml` and `package.json`; reads raise. -/
def rexJavaNode : RootDir :=
  { files := ["package.json", "pom.xml"],
    exists_ := fun f => f == "pom.xml" || f == "package.json",
    readText := fun _ => Except.error (), parseJson := fun _ => Except.error () }

/-- Project root with none of the marker files. -/
def rexNone : RootDir :=
  { files := ["README.md"], exists_ := fun _ => false,
    readText := fun _ => Except.error (), parseJson := fun _ => Except.error () }

/-- Project root with a readable `pom.xml` matching neither version pattern. -/
def rexJavaNoMatch : RootDir :=
  { files := ["pom.xml"], exists_ := fun f => f == "pom.xml",
    readText := fun f => if f == "pom.xml" then Except.ok "<project></project>" else Except.error (),
    parseJson := fun _ => Except.error () }

/-- Project root with a readable but unparsable `package.json`. -/
def rexNodeBad : RootDir :=
  { files := ["package.json"], exists_ := fun f => f == "package.json",
    readText := fun f => if f == "package.json" then Except.ok "not json" else Except.error (),
    parseJson := fun _ => Except.error () }

/-- Project root whose only marker is `pyproject.toml`; reading it raises. -/
def rexPyErr : RootDir :=
  { files := ["pyproject.toml"], exists_ := fun f => f == "pyproject.toml",
    readText := fun _ => Except.error (), parseJson := fun _ => Except.error () }

/-- Store holding only the generic docker template, whose text is a bare
`PROJECT_NAME` placeholder token. -/
def storeProjectNameTpl : String → Option String :=
  fun p => if p = "docker/Dockerfile.generic" then some "\x7b\x7bPROJECT_NAME\x7d\x7d" else none

/-- Store where the generic docker template is missing but the other two
generic templates exist. -/
def storeNoDocker : String → Option String :=
  fun p =>
    if p = "jenkins/Jenkinsfile.generic" then some "jenkins pipeline"
    else if p = "gitlab/.gitlab-ci.generic.yml" then some "gitlab pipeline"
    else none

/-- Context whose first value contains the second key's token: exercises
the sequential-replacement order of `render_template`. -/
def ctxChain : List (String × String) := [("A", "\x7b\x7bB\x7d\x7d"), ("B", "x")]

/-- Store holding one template `t` whose text is the token of key `A`. -/
def storeChain : String → Option String :=
  fun p => if p = "t" then some "\x7b\x7bA\x7d\x7d" else none

/-- The context of the spec's rendering example. -/
def varsDemo : List (String × String) :=
  [("BUILD_CMD", "go build ./..."), ("PROJECT_NAME", "demo")]

/-- Segment form of the spec's example template: recognized tokens for
`BUILD_CMD` and `PROJECT_NAME`, an unrecognized `UNKNOWN_VAR` token, and
literal text in between. -/
def segsDemo : List Seg :=
  [Seg.text "build: ".data, Seg.tok "BUILD_CMD".data,
   Seg.text " name ".data, Seg.tok "PROJECT_NAME".data,
   Seg.text " u ".data, Seg.tok "UNKNOWN_VAR".data]

/-- Store holding the spec's example template under path `t`. -/
def storeDemo : String → Option String :=
  fun p => if p = "t" then some (String.mk (flattenSegs segsDemo)) else none

/-- Segment form of a docker template using `IMAGE_NAME` (a substituted
key) and `PROJECT_NAME` (computed but never passed to the renderer). -/
def segsDockerPn : List Seg :=
  [Seg.text "image: ".data, Seg.tok "IMAGE_NAME".data,
   Seg.text " pn ".data, Seg.tok "PROJECT_NAME".data]

/-- Store holding only the generic docker template in segment form. -/
def storeDockerPn : String → Option String :=
  fun p => if p = "docker/Dockerfile.generic" then some (String.mk (flattenSegs segsDockerPn)) else none

/-- The eight ecosystem marker files, in the order the spec lists them. -/
def markerFiles : List String :=
  ["pom.xml", "build.gradle", "build.gradle.kts", "go.mod",
   "package.json", "pyproject.toml", "requirements.txt", "setup.py"]

/-- Bundle used by the run on a given root: selection is a function of the
detected tag alone. -/
def runBundle (root : RootDir) : TemplateBundle :=
  effectiveBundle (detect_language root).language

/-- The six-key render context of the run on a given root and environment. -/
def runVars (root : RootDir) (env : Env) : List (String × String) :=
  renderVars (runBundle root) (detect_language root) env

theorem isPrefixOf_nil_left (l : List Char) : List.isPrefixOf [] l = true := by
  cases l <;> rfl

theorem isPrefixOf_cc (a b : Char) (l m : List Char) :
    (a :: l).isPrefixOf (b :: m) = (a == b && l.isPrefixOf m) := rfl

theorem isPrefixOf_append_self (p l : List Char) : p.isPrefixOf (p ++ l) = true := by
  induction p with
  | nil => exact isPrefixOf_nil_left l
  | cons a as ih => simp [isPrefixOf_cc, ih]

theorem replaceAux_succ (pat rep : List Char) (n : Nat) (c : Char) (cs : List Char) :
    replaceAux pat rep (n + 1) (c :: cs) = replaceAux pat rep n cs := rfl

theorem replaceAux_zero_cons (pat rep : List Char) (c : Char) (cs : List Char) :
    replaceAux pat rep 0 (c :: cs) =
      if pat.isPrefixOf (c :: cs) then rep ++ replaceAux pat rep (pat.length - 1) cs
      else c :: replaceAux pat rep 0 cs := by
  simp [replaceAux]

theorem replaceAux_nil_right (pat rep : List Char) (n : Nat) : replaceAux pat rep n [] = [] := by
  cases n <;> rfl

theorem replaceAux_skip (pat rep : List Char) :
    ∀ (n : Nat) (s : List Char), replaceAux pat rep n s = replaceAux pat rep 0 (s.drop n) := by
  intro n
  induction n with
  | zero => intro s; rfl
  | succ m ih =>
    intro s
    cases s with
    | nil => rw [replaceAux_nil_right, List.drop_nil, replaceAux_nil_right]
    | cons c cs => rw [replaceAux_succ, ih, List.drop_succ_cons]

theorem noOpen_walk (pt rep : List Char) :
    ∀ (s rest : List Char), (∀ c ∈ s, c ≠ obr) →
      replaceAux (obr :: pt) rep 0 (s ++ rest) = s ++ replaceAux (obr :: pt) rep 0 rest := by
  intro s
  induction s with
  | nil => intro rest _; rfl
  | cons c cs ih =>
    intro rest h
    have hc : c ≠ obr := h c (List.mem_cons_self c cs)
    have hpre : ((obr :: pt).isPrefixOf (c :: (cs ++ rest))) = false := by
      rw [isPrefixOf_cc]
      have hb : (obr == c) = false := by
        simp only [beq_eq_false_iff_ne]
        exact fun e => hc e.symm
      rw [hb, Bool.false_and]
    rw [List.cons_append, replaceAux_zero_cons, hpre, if_neg (by simp)]
    rw [ih rest (fun d hd => h d (List.mem_cons_of_mem c hd)), List.cons_append]

theorem drop_len_left (m t : List Char) : List.drop m.length (m ++ t) = t :=
  List.drop_left m t

theorem key_close_ne_pref :
    ∀ (k n : List Char), braceFree k → braceFree n → k ≠ n → ∀ l : List Char,
      ((k ++ [cbr, cbr]).isPrefixOf ((n ++ [cbr, cbr]) ++ l)) = false := by
  intro k
  induction k with
  | nil =>
    intro n _ hn hne l
    cases n with
    | nil => exact absurd rfl hne
    | cons c n' =>
      have hc : c ≠ cbr := (hn c (List.mem_cons_self c n')).2
      rw [List.nil_append, List.cons_append, List.cons_append, isPrefixOf_cc]
      have hb : (cbr == c) = false := by
        simp only [beq_eq_false_iff_ne]
        exact fun e => hc e.symm
      rw [hb, Bool.false_and]
  | cons a k' ih =>
    intro n hk hn hne l
    have ha : a ≠ cbr := (hk a (List.mem_cons_self a k')).2
    cases n with
    | nil =>
      rw [List.nil_append, List.cons_append, List.cons_append, isPrefixOf_cc]
      have hb : (a == cbr) = false := by
        simp only [beq_eq_false_iff_ne]
        exact ha
      rw [hb, Bool.false_and]
    | cons b n' =>
      rw [List.cons_append, List.cons_append, List.cons_append, isPrefixOf_cc]
      by_cases hab : a = b
      · subst hab
        have hne' : k' ≠ n' := fun e => hne (by rw [e])
        have hk' : braceFree k' := fun c hc => hk c (List.mem_cons_of_mem a hc)
        have hn' : braceFree n' := fun c hc => hn c (List.mem_cons_of_mem a hc)
        rw [ih n' hk' hn' hne' l, Bool.and_false]
      · have hb : (a == b) = false := by
          simp only [beq_eq_false_iff_ne]
          exact hab
        rw [hb, Bool.false_and]

theorem tok_ne_pref (k n : List Char) (hk : braceFree k) (hn : braceFree n) (hne : k ≠ n)
    (l : List Char) : ((tokenOf k).isPrefixOf (tokenOf n ++ l)) = false := by
  show ((obr :: obr :: (k ++ [cbr, cbr])).isPrefixOf
    ((obr :: obr :: (n ++ [cbr, cbr])) ++ l)) = false
  rw [List.cons_append, List.cons_append, isPrefixOf_cc, isPrefixOf_cc]
  rw [key_close_ne_pref k n hk hn hne l]
  simp

theorem noOpen_walk_tok (k v s rest : List Char) (hno : ∀ c ∈ s, c ≠ obr) :
    replaceAux (tokenOf k) v 0 (s ++ rest) = s ++ replaceAux (tokenOf k) v 0 rest :=
  noOpen_walk (obr :: (k ++ [cbr, cbr])) v s rest hno

theorem token_match (k v l : List Char) :
    replaceAux (tokenOf k) v 0 (tokenOf k ++ l) = v ++ replaceAux (tokenOf k) v 0 l := by
  show replaceAux (tokenOf k) v 0 (obr :: (obr :: ((k ++ [cbr, cbr]) ++ l))) =
    v ++ replaceAux (tokenOf k) v 0 l
  have hp : ((tokenOf k).isPrefixOf (obr :: (obr :: ((k ++ [cbr, cbr]) ++ l)))) = true :=
    isPrefixOf_append_self (tokenOf k) l
  rw [replaceAux_zero_cons, if_pos hp]
  have hlen : (tokenOf k).length - 1 = (k ++ [cbr, cbr] : List Char).length + 1 := by
    show (obr :: obr :: (k ++ [cbr, cbr])).length - 1 = (k ++ [cbr, cbr] : List Char).length + 1
    simp
  rw [hlen, replaceAux_skip, List.drop_succ_cons, drop_len_left]

theorem token_walk (k n v : List Char) (hk : braceFree k) (hn : braceFree n) (hn0 : n ≠ [])
    (hne : k ≠ n) (l : List Char) :
    replaceAux (tokenOf k) v 0 (tokenOf n ++ l) =
      tokenOf n ++ replaceAux (tokenOf k) v 0 l := by
  cases n with
  | nil => exact absurd rfl hn0
  | cons c n' =>
    show replaceAux (tokenOf k) v 0 (obr :: (obr :: (c :: ((n' ++ [cbr, cbr]) ++ l)))) =
      obr :: (obr :: (c :: ((n' ++ [cbr, cbr]) ++ replaceAux (tokenOf k) v 0 l)))
    have hc : c ≠ obr := (hn c (List.mem_cons_self c n')).1
    have h0 : ((tokenOf k).isPrefixOf (obr :: (obr :: (c :: ((n' ++ [cbr, cbr]) ++ l))))) = false :=
      tok_ne_pref k (c :: n') hk hn hne l
    have h0' : ¬ ((tokenOf k).isPrefixOf (obr :: (obr :: (c :: ((n' ++ [cbr, cbr]) ++ l)))) = true) := by
      rw [h0]
      exact Bool.false_ne_true
    rw [replaceAux_zero_cons, if_neg h0']
    have h1 : ((tokenOf k).isPrefixOf (obr :: (c :: ((n' ++ [cbr, cbr]) ++ l)))) = false := by
      show ((obr :: (obr :: (k ++ [cbr, cbr]))).isPrefixOf (obr :: (c :: ((n' ++ [cbr, cbr]) ++ l)))) = false
      rw [isPrefixOf_cc, isPrefixOf_cc]
      have hb : (obr == c) = false := by
        simp only [beq_eq_false_iff_ne]
        exact fun e => hc e.symm
      rw [hb, Bool.false_and, Bool.and_false]
    have h1' : ¬ ((tokenOf k).isPrefixOf (obr :: (c :: ((n' ++ [cbr, cbr]) ++ l))) = true) := by
      rw [h1]
      exact Bool.false_ne_true
    rw [replaceAux_zero_cons, if_neg h1']
    have hmem : ∀ d ∈ (c :: (n' ++ [cbr, cbr]) : List Char), d ≠ obr := by
      intro d hd
      rcases List.mem_cons.mp hd with h | h
      · rw [h]; exact hc
      · rcases List.mem_append.mp h with h2 | h2
        · exact (hn d (List.mem_cons_of_mem c h2)).1
        · have : d = cbr := by
            rcases List.mem_cons.mp h2 with h3 | h3
            · exact h3
            · exact List.mem_singleton.mp h3
          rw [this]
          decide
    exact congrArg (fun t => obr :: obr :: t)
      (noOpen_walk (obr :: (k ++ [cbr, cbr])) v (c :: (n' ++ [cbr, cbr])) l hmem)

theorem replace_flatten (k v : List Char) (hk : braceFree k) (hk0 : k ≠ []) :
    ∀ segs : List Seg, (∀ sg ∈ segs, WFSeg sg) →
      replaceAux (tokenOf k) v 0 (flattenSegs segs) =
        flattenSegs (segs.map (replaceTok k v)) := by
  intro segs
  induction segs with
  | nil => intro _; rfl
  | cons sg rest ih =>
    intro h
    have hsg : WFSeg sg := h sg (List.mem_cons_self sg rest)
    have hrest : ∀ s ∈ rest, WFSeg s := fun s hs => h s (List.mem_cons_of_mem sg hs)
    cases sg with
    | text s =>
      show replaceAux (tokenOf k) v 0 (s ++ flattenSegs rest) =
        s ++ flattenSegs (rest.map (replaceTok k v))
      have hno : ∀ c ∈ s, c ≠ obr := fun c hc => (hsg c hc).1
      rw [noOpen_walk_tok k v s (flattenSegs rest) hno, ih hrest]
    | tok n =>
      have hn : braceFree n := hsg.1
      have hn0 : n ≠ [] := hsg.2
      by_cases hnk : n = k
      · subst hnk
        show replaceAux (tokenOf n) v 0 (tokenOf n ++ flattenSegs rest) =
          flattenSegs (replaceTok n v (Seg.tok n) :: rest.map (replaceTok n v))
        rw [token_match, ih hrest]
        have : replaceTok n v (Seg.tok n) = Seg.text v := by
          simp [replaceTok]
        rw [this]
        rfl
      · show replaceAux (tokenOf k) v 0 (tokenOf n ++ flattenSegs rest) =
          flattenSegs (replaceTok k v (Seg.tok n) :: rest.map (replaceTok k v))
        rw [token_walk k n v hk hn hn0 (fun e => hnk e.symm), ih hrest]
        have : replaceTok k v (Seg.tok n) = Seg.tok n := by
          simp [replaceTok, hnk]
        rw [this]
        rfl

theorem WFSeg_replaceTok (k v : List Char) (hv : braceFree v) :
    ∀ sg : Seg, WFSeg sg → WFSeg (replaceTok k v sg) := by
  intro sg hsg
  cases sg with
  | text s => exact hsg
  | tok n =>
    show WFSeg (if n = k then Seg.text v else Seg.tok n)
    by_cases hnk : n = k
    · rw [if_pos hnk]; exact hv
    · rw [if_neg hnk]; exact hsg

theorem applyVarsL_foldSegs :
    ∀ ctx : List (List Char × List Char), WFCtx ctx →
    ∀ segs : List Seg, (∀ sg ∈ segs, WFSeg sg) →
      applyVarsL ctx (flattenSegs segs) =
        flattenSegs (ctx.foldl (fun sgs kv => sgs.map (replaceTok kv.1 kv.2)) segs) := by
  intro ctx
  induction ctx with
  | nil => intro _ segs _; rfl
  | cons kv ctx' ih =>
    intro hctx segs hsegs
    have hkv := hctx kv (List.mem_cons_self kv ctx')
    have hctx' : WFCtx ctx' := fun p hp => hctx p (List.mem_cons_of_mem kv hp)
    show applyVarsL ctx' (replaceAux (tokenOf kv.1) kv.2 0 (flattenSegs segs)) =
      flattenSegs (ctx'.foldl (fun sgs p => sgs.map (replaceTok p.1 p.2))
        (segs.map (replaceTok kv.1 kv.2)))
    rw [replace_flatten kv.1 kv.2 hkv.1 hkv.2.1 segs hsegs]
    exact ih hctx' (segs.map (replaceTok kv.1 kv.2))
      (fun sg hsg => by
        rcases List.mem_map.mp hsg with ⟨sg0, hsg0, rfl⟩
        exact WFSeg_replaceTok kv.1 kv.2 hkv.2.2 sg0 (hsegs sg0 hsg0))

theorem foldSegs_map_comm :
    ∀ (ctx : List (List Char × List Char)) (segs : List Seg),
      ctx.foldl (fun sgs kv => sgs.map (replaceTok kv.1 kv.2)) segs =
        segs.map (fun sg => ctx.foldl (fun s kv => replaceTok kv.1 kv.2 s) sg) := by
  intro ctx
  induction ctx with
  | nil => intro segs; simp
  | cons kv ctx' ih =>
    intro segs
    show ctx'.foldl (fun sgs p => sgs.map (replaceTok p.1 p.2)) (segs.map (replaceTok kv.1 kv.2)) =
      segs.map (fun sg => ctx'.foldl (fun s p => replaceTok p.1 p.2 s) (replaceTok kv.1 kv.2 sg))
    rw [ih (segs.map (replaceTok kv.1 kv.2)), List.map_map]
    rfl

theorem segFold_text (ctx : List (List Char × List Char)) (s : List Char) :
    ctx.foldl (fun sg kv => replaceTok kv.1 kv.2 sg) (Seg.text s) = Seg.text s := by
  induction ctx with
  | nil => rfl
  | cons kv ctx' ih => exact ih

theorem segFold_eq_subst (ctx : List (List Char × List Char)) :
    ∀ sg : Seg, ctx.foldl (fun sg kv => replaceTok kv.1 kv.2 sg) sg = substSeg ctx sg := by
  intro sg
  induction ctx generalizing sg with
  | nil =>
    cases sg with
    | text s => rfl
    | tok n => simp [substSeg, List.lookup]
  | cons kv ctx' ih =>
    cases sg with
    | text s =>
      rw [segFold_text]
      rfl
    | tok n =>
      show ctx'.foldl (fun sg p => replaceTok p.1 p.2 sg) (replaceTok kv.1 kv.2 (Seg.tok n)) =
        substSeg (kv :: ctx') (Seg.tok n)
      by_cases hnk : n = kv.1
      · have h1 : replaceTok kv.1 kv.2 (Seg.tok n) = Seg.text kv.2 := by
          simp [replaceTok, hnk]
        rw [h1, segFold_text]
        have h2 : (kv :: ctx').lookup n = some kv.2 := by
          simp [List.lookup, hnk]
        simp [substSeg, h2]
      · have h1 : replaceTok kv.1 kv.2 (Seg.tok n) = Seg.tok n := by
          simp [replaceTok, hnk]
        rw [h1, ih (Seg.tok n)]
        have hb : (n == kv.1) = false := beq_eq_false_iff_ne.mpr hnk
        have h2 : (kv :: ctx').lookup n = ctx'.lookup n := by
          simp [List.lookup, hb]
        simp [substSeg, h2]

theorem applyVarsL_simultaneous (ctx : List (List Char × List Char)) (hctx : WFCtx ctx)
    (segs : List Seg) (hsegs : ∀ sg ∈ segs, WFSeg sg) :
    applyVarsL ctx (flattenSegs segs) = flattenSegs (segs.map (substSeg ctx)) := by
  rw [applyVarsL_foldSegs ctx hctx segs hsegs, foldSegs_map_comm]
  have : (fun sg => ctx.foldl (fun s kv => replaceTok kv.1 kv.2 s) sg) = substSeg ctx :=
    funext (segFold_eq_subst ctx)
  rw [this]

theorem applyVars_simultaneous (vars : List (String × String)) (segs : List Seg)
    (hctx : WFCtx (ctxOf vars)) (hsegs : ∀ sg ∈ segs, WFSeg sg) :
    applyVars vars (String.mk (flattenSegs segs)) =
      String.mk (flattenSegs (segs.map (substSeg (ctxOf vars)))) := by
  unfold applyVars
  rw [show (String.mk (flattenSegs segs)).data = flattenSegs segs from rfl]
  rw [applyVarsL_simultaneous (ctxOf vars) hctx segs hsegs]

/-- C3 (counterexample): `render_template` applies the replacements
sequentially, so with context `{A: "{{B}}", B: "x"}` the template `{{A}}`
renders to `"x"`, not to `A`'s own value `"{{B}}"` as the claim's
simultaneous reading (`substSeg`) prescribes. -/
theorem render_template_chains_counterexample :
    storeChain "t" = some (String.mk (flattenSegs [Seg.tok "A".data])) ∧
    render_template storeChain (some "t") ctxChain = some "x" ∧
    String.mk (flattenSegs ([Seg.tok "A".data].map (substSeg (ctxOf ctxChain)))) =
      "\x7b\x7bB\x7d\x7d" ∧
    ("x" : String) ≠ "\x7b\x7bB\x7d\x7d" := by
  refine ⟨by decide, by decide, by decide, by decide⟩

/-- C3 (amended): for a well-braced template (literal brace-free text runs
alternating with brace-free, nonempty-named tokens) and a context whose
keys and values are brace-free, `render_template` performs exactly the
simultaneous substitution the spec describes: every token bound in the
context is replaced by its (first) value, unrecognized tokens and all
other text pass through unchanged. Without these conditions the
sequential pass order is observable (see the counterexample). -/
theorem render_template_simultaneous (store : String → Option String) (p : String)
    (vars : List (String × String)) (segs : List Seg)
    (hctx : WFCtx (ctxOf vars)) (hsegs : ∀ sg ∈ segs, WFSeg sg)
    (hstore : store p = some (String.mk (flattenSegs segs))) :
    render_template store (some p) vars =
      some (String.mk (flattenSegs (segs.map (substSeg (ctxOf vars))))) := by
  show (match store p with
    | none => none
    | some s => some (applyVars vars s)) =
    some (String.mk (flattenSegs (segs.map (substSeg (ctxOf vars)))))
  rw [hstore]
  show some (applyVars vars (String.mk (flattenSegs segs))) =
    some (String.mk (flattenSegs (segs.map (substSeg (ctxOf vars)))))
  rw [applyVars_simultaneous vars segs hctx hsegs]

/-- C3 (witness): the spec's example — `{{BUILD_CMD}}` and
`{{PROJECT_NAME}}` both replaced, `{{UNKNOWN_VAR}}` untouched, no other
text altered. -/
theorem render_template_simultaneous_witness :
    render_template storeDemo (some "t") varsDemo =
      some "build: go build ./... name demo u \x7b\x7bUNKNOWN_VAR\x7d\x7d" := by
  have h := render_template_simultaneous storeDemo "t" varsDemo segsDemo
    (by decide) (by decide) (by decide)
  rw [h]
  decide

theorem kindResult_none (store : String → Option String) (vars : List (String × String))
    (p o k : String) (h : store p = none) :
    kindResult store vars p o k = ([], ["Template for " ++ k ++ " not found: " ++ p]) := by
  unfold kindResult
  show (match render_template store (some p) vars with
    | none => ([], ["Template for " ++ k ++ " not found: " ++ p])
    | some content => ([(o, content)], ["Wrote " ++ o])) = _
  have : render_template store (some p) vars = none := by
    show (match store p with
      | none => none
      | some s => some (applyVars vars s)) = none
    rw [h]
  rw [this]

theorem kindResult_some (store : String → Option String) (vars : List (String × String))
    (p o k c : String) (h : store p = some c) :
    kindResult store vars p o k = ([(o, applyVars vars c)], ["Wrote " ++ o]) := by
  unfold kindResult
  show (match render_template store (some p) vars with
    | none => ([], ["Template for " ++ k ++ " not found: " ++ p])
    | some content => ([(o, content)], ["Wrote " ++ o])) = _
  have : render_template store (some p) vars = some (applyVars vars c) := by
    show (match store p with
      | none => none
      | some s => some (applyVars vars s)) = some (applyVars vars c)
    rw [h]
  rw [this]

theorem main_run_eq (root : RootDir) (store : String → Option String) (env : Env) :
    main_run root store env =
      (kindResult store (runVars root env) (runBundle root).docker outDocker "docker").1 ++
      (kindResult store (runVars root env) (runBundle root).jenkins outJenkins "jenkins").1 ++
      (kindResult store (runVars root env) (runBundle root).gitlab outGitlab "gitlab").1 ++
      [(outReport, String.intercalate "\n" (main_reportLines root store env))] := by
  show (mainParts root store env).1 ++ _ = _
  have h1 : (mainParts root store env).1 =
      (kindResult store (runVars root env) (runBundle root).docker outDocker "docker").1 ++
      (kindResult store (runVars root env) (runBundle root).jenkins outJenkins "jenkins").1 ++
      (kindResult store (runVars root env) (runBundle root).gitlab outGitlab "gitlab").1 := rfl
  rw [h1, List.append_assoc, List.append_assoc]

theorem main_reportLines_eq (root : RootDir) (store : String → Option String) (env : Env) :
    main_reportLines root store env =
      ["language: " ++ (detect_language root).language,
       "found_files: " ++ pyListRepr (detect_language root).found_files] ++
      (if (choose_templates (detect_language root).language).isNone then
        ["No built-in template for detected language. Provide justification to add support."]
      else []) ++
      (kindResult store (runVars root env) (runBundle root).docker outDocker "docker").2 ++
      (kindResult store (runVars root env) (runBundle root).jenkins outJenkins "jenkins").2 ++
      (kindResult store (runVars root env) (runBundle root).gitlab outGitlab "gitlab").2 := rfl

/-- C2 (counterexample): in a full run on a markerless project whose
docker template is exactly one `PROJECT_NAME` placeholder token, the
written output still contains the token verbatim — it is not replaced by
the context's project name `"local-project"`, because the render call in
`main` passes only the six keys `BUILD_CMD`, `TEST_CMD`, `CACHE_DIR`,
`IMAGE_NAME`, `SONAR_HOST`, `NEXUS_URL`. -/
theorem project_name_token_not_rendered :
    (outDocker, "\x7b\x7bPROJECT_NAME\x7d\x7d") ∈ main_run rexNone storeProjectNameTpl envNone ∧
    project_name_of (detect_language rexNone) = "local-project" ∧
    ("\x7b\x7bPROJECT_NAME\x7d\x7d" : String) ≠ "local-project" := by
  refine ⟨by decide, by decide, by decide⟩

/-- C2 (amended): the renderer substitutes exactly the six context keys
`BUILD_CMD`, `TEST_CMD`, `CACHE_DIR`, `IMAGE_NAME`, `SONAR_HOST`,
`NEXUS_URL` into each present template; for a well-braced docker template
the written output is the simultaneous substitution of those six values,
and `PROJECT_NAME` — although computed into the run's variables — is not
among the render keys, so a `PROJECT_NAME` token is left untouched. -/
theorem main_renders_six_keys (root : RootDir) (store : String → Option String) (env : Env)
    (segs : List Seg)
    (hctx : WFCtx (ctxOf (runVars root env)))
    (hsegs : ∀ sg ∈ segs, WFSeg sg)
    (hstore : store (runBundle root).docker = some (String.mk (flattenSegs segs))) :
    (outDocker, String.mk (flattenSegs (segs.map (substSeg (ctxOf (runVars root env)))))) ∈
      main_run root store env ∧
    (ctxOf (runVars root env)).lookup ("PROJECT_NAME".data) = none ∧
    substSeg (ctxOf (runVars root env)) (Seg.tok ("PROJECT_NAME".data)) =
      Seg.tok ("PROJECT_NAME".data) := by
  have hlook : (ctxOf (runVars root env)).lookup ("PROJECT_NAME".data) = none := by
    show (ctxOf (renderVars (runBundle root) (detect_language root) env)).lookup
      ("PROJECT_NAME".data) = none
    rfl
  refine ⟨?_, hlook, ?_⟩
  · rw [main_run_eq,
      kindResult_some store (runVars root env) (runBundle root).docker outDocker "docker" _ hstore,
      applyVars_simultaneous (runVars root env) segs hctx hsegs]
    simp
  · show (match (ctxOf (runVars root env)).lookup ("PROJECT_NAME".data) with
      | some v => Seg.text v
      | none => Seg.tok ("PROJECT_NAME".data)) = Seg.tok ("PROJECT_NAME".data)
    rw [hlook]

/-- C2 (witness): markerless run with a generic docker template holding an
`IMAGE_NAME` token and a `PROJECT_NAME` token: the image name is
substituted, the project-name token survives verbatim. -/
theorem main_renders_six_keys_witness :
    (outDocker, "image: local-project:latest pn \x7b\x7bPROJECT_NAME\x7d\x7d") ∈
      main_run rexNone storeDockerPn envNone := by
  have h := main_renders_six_keys rexNone storeDockerPn envNone segsDockerPn
    (by decide) (by decide) (by decide)
  have e : String.mk (flattenSegs (segsDockerPn.map (substSeg (ctxOf (runVars rexNone envNone))))) =
      "image: local-project:latest pn \x7b\x7bPROJECT_NAME\x7d\x7d" := by decide
  rw [← e]
  exact h.1

theorem kindResult_fst (store : String → Option String) (vars : List (String × String))
    (p o k : String) : ∀ x ∈ (kindResult store vars p o k).1, x.1 = o := by
  intro x hx
  rcases h : render_template store (some p) vars with _ | content
  · unfold kindResult at hx
    rw [h] at hx
    simp at hx
  · unfold kindResult at hx
    rw [h] at hx
    simp at hx
    rw [hx]

/-- C4: if the template file for a kind is missing, that kind's output is
not written and the report gains a line naming the missing template; each
kind whose template exists is still rendered and written; and the report
file is written in every run (the run completes). -/
theorem missing_template_degrades (root : RootDir) (store : String → Option String) (env : Env) :
    (store (runBundle root).docker = none →
      (∀ c : String, (outDocker, c) ∉ main_run root store env) ∧
      ("Template for docker not found: " ++ (runBundle root).docker) ∈
        main_reportLines root store env) ∧
    (store (runBundle root).jenkins = none →
      (∀ c : String, (outJenkins, c) ∉ main_run root store env) ∧
      ("Template for jenkins not found: " ++ (runBundle root).jenkins) ∈
        main_reportLines root store env) ∧
    (store (runBundle root).gitlab = none →
      (∀ c : String, (outGitlab, c) ∉ main_run root store env) ∧
      ("Template for gitlab not found: " ++ (runBundle root).gitlab) ∈
        main_reportLines root store env) ∧
    (∀ c : String, store (runBundle root).docker = some c →
      (outDocker, applyVars (runVars root env) c) ∈ main_run root store env) ∧
    (∀ c : String, store (runBundle root).jenkins = some c →
      (outJenkins, applyVars (runVars root env) c) ∈ main_run root store env) ∧
    (∀ c : String, store (runBundle root).gitlab = some c →
      (outGitlab, applyVars (runVars root env) c) ∈ main_run root store env) ∧
    (outReport, String.intercalate "\n" (main_reportLines root store env)) ∈
      main_run root store env := by
  refine ⟨?_, ?_, ?_, ?_, ?_, ?_, ?_⟩
  · intro hd
    constructor
    · intro c hmem
      rw [main_run_eq, kindResult_none store (runVars root env) _ outDocker "docker" hd] at hmem
      rcases List.mem_append.mp hmem with h1 | h1
      · rcases List.mem_append.mp h1 with h2 | h2
        · rcases List.mem_append.mp h2 with h3 | h3
          · simp at h3
          · have := kindResult_fst store (runVars root env) (runBundle root).jenkins
              outJenkins "jenkins" _ h3
            simp [outDocker, outJenkins] at this
        · have := kindResult_fst store (runVars root env) (runBundle root).gitlab
            outGitlab "gitlab" _ h2
          simp [outDocker, outGitlab] at this
      · simp [outDocker, outReport] at h1
    · rw [main_reportLines_eq, kindResult_none store (runVars root env) _ outDocker "docker" hd]
      simp
  · intro hj
    constructor
    · intro c hmem
      rw [main_run_eq, kindResult_none store (runVars root env) _ outJenkins "jenkins" hj] at hmem
      rcases List.mem_append.mp hmem with h1 | h1
      · rcases List.mem_append.mp h1 with h2 | h2
        · rcases List.mem_append.mp h2 with h3 | h3
          · have := kindResult_fst store (runVars root env) (runBundle root).docker
              outDocker "docker" _ h3
            simp [outDocker, outJenkins] at this
          · simp at h3
        · have := kindResult_fst store (runVars root env) (runBundle root).gitlab
            outGitlab "gitlab" _ h2
          simp [outJenkins, outGitlab] at this
      · simp [outJenkins, outReport] at h1
    · rw [main_reportLines_eq, kindResult_none store (runVars root env) _ outJenkins "jenkins" hj]
      simp
  · intro hg
    constructor
    · intro c hmem
      rw [main_run_eq, kindResult_none store (runVars root env) _ outGitlab "gitlab" hg] at hmem
      rcases List.mem_append.mp hmem with h1 | h1
      · rcases List.mem_append.mp h1 with h2 | h2
        · rcases List.mem_append.mp h2 with h3 | h3
          · have := kindResult_fst store (runVars root env) (runBundle root).docker
              outDocker "docker" _ h3
            simp [outDocker, outGitlab] at this
          · have := kindResult_fst store (runVars root env) (runBundle root).jenkins
              outJenkins "jenkins" _ h3
            simp [outJenkins, outGitlab] at this
        · simp at h2
      · simp [outGitlab, outReport] at h1
    · rw [main_reportLines_eq, kindResult_none store (runVars root env) _ outGitlab "gitlab" hg]
      simp
  · intro c hc
    rw [main_run_eq, kindResult_some store (runVars root env) _ outDocker "docker" c hc]
    simp
  · intro c hc
    rw [main_run_eq, kindResult_some store (runVars root env) _ outJenkins "jenkins" c hc]
    simp
  · intro c hc
    rw [main_run_eq, kindResult_some store (runVars root env) _ outGitlab "gitlab" c hc]
    simp
  · rw [main_run_eq]
    simp

/-- C4 (witness): markerless run where the generic docker template is
missing but the jenkins and gitlab templates exist: the report names the
missing docker template, no Dockerfile is written, and both other outputs
are written. -/
theorem missing_template_degrades_witness :
    ("Template for docker not found: " ++ (runBundle rexNone).docker) ∈
      main_reportLines rexNone storeNoDocker envNone ∧
    (outDocker, "docker output") ∉ main_run rexNone storeNoDocker envNone ∧
    (outJenkins, "jenkins pipeline") ∈ main_run rexNone storeNoDocker envNone ∧
    (outGitlab, "gitlab pipeline") ∈ main_run rexNone storeNoDocker envNone := by
  have h := missing_template_degrades rexNone storeNoDocker envNone
  refine ⟨(h.1 (by decide)).2, (h.1 (by decide)).1 "docker output", ?_, ?_⟩
  · have hm := h.2.2.2.2.1 "jenkins pipeline" (by decide)
    have e : applyVars (runVars rexNone envNone) "jenkins pipeline" = "jenkins pipeline" := by
      decide
    rw [e] at hm
    exact hm
  · have hm := h.2.2.2.2.2.1 "gitlab pipeline" (by decide)
    have e : applyVars (runVars rexNone envNone) "gitlab pipeline" = "gitlab pipeline" := by
      decide
    rw [e] at hm
    exact hm

theorem lastWrite_cons (ws : List (String × String)) (p : String) :
    ∀ a : Option String,
      ws.foldl (fun acc x => if x.1 = p then some x.2 else acc) a =
        match lastWrite ws p with
        | some c => some c
        | none => a := by
  induction ws with
  | nil => intro a; rfl
  | cons w' ws' ih =>
    intro a
    show ws'.foldl (fun acc x => if x.1 = p then some x.2 else acc)
        (if w'.1 = p then some w'.2 else a) = _
    rw [ih (if w'.1 = p then some w'.2 else a)]
    have hl : lastWrite (w' :: ws') p =
        match lastWrite ws' p with
        | some c => some c
        | none => if w'.1 = p then some w'.2 else none := by
      show ws'.foldl (fun acc x => if x.1 = p then some x.2 else acc)
        (if w'.1 = p then some w'.2 else none) = _
      rw [ih (if w'.1 = p then some w'.2 else none)]
    rw [hl]
    rcases h : lastWrite ws' p with _ | c
    · by_cases hw : w'.1 = p
      · simp [hw]
      · simp [hw]
    · rfl

theorem applyWrites_eq (ws : List (String × String)) :
    ∀ (fs : String → Option String) (p : String),
      applyWrites ws fs p =
        match lastWrite ws p with
        | some c => some c
        | none => fs p := by
  induction ws with
  | nil => intro fs p; rfl
  | cons w ws' ih =>
    intro fs p
    show applyWrites ws' (fsWrite fs w) p = _
    rw [ih (fsWrite fs w) p]
    have hl : lastWrite (w :: ws') p =
        match lastWrite ws' p with
        | some c => some c
        | none => if w.1 = p then some w.2 else none := by
      show ws'.foldl (fun acc x => if x.1 = p then some x.2 else acc)
        (if w.1 = p then some w.2 else none) = _
      rw [lastWrite_cons ws' p (if w.1 = p then some w.2 else none)]
    rw [hl]
    rcases h : lastWrite ws' p with _ | c
    · show fsWrite fs w p = _
      unfold fsWrite
      by_cases hw : w.1 = p
      · rw [if_pos (by rw [hw]), if_pos hw]
      · rw [if_neg (fun e => hw e.symm), if_neg hw]
    · rfl

/-- C5: the pipeline's writes are a pure function of the project root, the
template store and the environment, and every write replaces the whole
file; hence running the pipeline twice over unchanged inputs leaves every
path — the three outputs and `report.txt` — with content byte-identical to
a single run. -/
theorem pipeline_idempotent (root : RootDir) (store : String → Option String) (env : Env)
    (fs : String → Option String) (p : String) :
    applyWrites (main_run root store env) (applyWrites (main_run root store env) fs) p =
      applyWrites (main_run root store env) fs p := by
  rw [applyWrites_eq, applyWrites_eq]
  rcases h : lastWrite (main_run root store env) p with _ | c
  · rfl
  · rfl

theorem detect_language_lang (root : RootDir) :
    (detect_language root).language = markerTag root.exists_ := by
  unfold detect_language markerTag
  split
  · rfl
  · split
    · rfl
    · split
      · rfl
      · split
        · rfl
        · rfl

/-- C1: a root containing both `pom.xml` and `package.json` is tagged
`java` — the build-tool manifest check comes first in the fixed priority
order, so `pom.xml` wins over `package.json`. -/
theorem pom_wins_over_package_json (root : RootDir)
    (h1 : root.exists_ "pom.xml" = true) (_h2 : root.exists_ "package.json" = true) :
    (detect_language root).language = "java" := by
  rw [detect_language_lang]
  simp [markerTag, h1]

/-- C1 (witness): concrete root with both manifests. -/
theorem pom_wins_over_package_json_witness :
    (detect_language rexJavaNode).language = "java" :=
  pom_wins_over_package_json rexJavaNode (by decide) (by decide)

/-- C6: with none of the eight marker files present the tag is `unknown`,
`choose_templates` has no entry for it, and the run falls back to the
generic bundle whose build and test commands are the inert
`echo "No build configured"` / `echo "No tests configured"`. -/
theorem no_markers_generic (root : RootDir)
    (h : ∀ f ∈ markerFiles, root.exists_ f = false) :
    (detect_language root).language = "unknown" ∧
    choose_templates (detect_language root).language = none ∧
    runBundle root = genericBundle ∧
    (runBundle root).build_cmd = "echo \"No build configured\"" ∧
    (runBundle root).test_cmd = "echo \"No tests configured\"" := by
  have hlang : (detect_language root).language = "unknown" := by
    rw [detect_language_lang]
    simp [markerTag, h "pom.xml" (by decide), h "build.gradle" (by decide),
      h "build.gradle.kts" (by decide), h "go.mod" (by decide), h "package.json" (by decide),
      h "pyproject.toml" (by decide), h "requirements.txt" (by decide), h "setup.py" (by decide)]
  refine ⟨hlang, ?_, ?_, ?_, ?_⟩
  · rw [hlang]
    decide
  · unfold runBundle effectiveBundle
    rw [hlang]
    decide
  · unfold runBundle effectiveBundle
    rw [hlang]
    decide
  · unfold runBundle effectiveBundle
    rw [hlang]
    decide

/-- C6 (witness): concrete markerless root. -/
theorem no_markers_generic_witness :
    (detect_language rexNone).language = "unknown" ∧
    choose_templates (detect_language rexNone).language = none ∧
    runBundle rexNone = genericBundle ∧
    (runBundle rexNone).build_cmd = "echo \"No build configured\"" ∧
    (runBundle rexNone).test_cmd = "echo \"No tests configured\"" :=
  no_markers_generic rexNone (by decide)

/-- C7: a root whose only marker file is `go.mod` is tagged `go`, and the
bundle selected for that tag has the module-wide build command
`go build -v ./...` as its default. -/
theorem go_only_detection (root : RootDir)
    (hg : root.exists_ "go.mod" = true)
    (h : ∀ f ∈ markerFiles, f ≠ "go.mod" → root.exists_ f = false) :
    (detect_language root).language = "go" ∧
    (runBundle root).build_cmd = "go build -v ./..." := by
  have hlang : (detect_language root).language = "go" := by
    rw [detect_language_lang]
    simp [markerTag, hg, h "pom.xml" (by decide) (by decide),
      h "build.gradle" (by decide) (by decide), h "build.gradle.kts" (by decide) (by decide)]
  refine ⟨hlang, ?_⟩
  unfold runBundle effectiveBundle
  rw [hlang]
  decide

/-- C7 (witness): concrete go-only root. -/
theorem go_only_detection_witness :
    (detect_language rexGo).language = "go" ∧
    (runBundle rexGo).build_cmd = "go build -v ./..." :=
  go_only_detection rexGo (by decide) (by decide)

theorem lastWrite_append_single (ws : List (String × String)) (w : String × String)
    (p : String) (hw : w.1 = p) : lastWrite (ws ++ [w]) p = some w.2 := by
  unfold lastWrite
  rw [List.foldl_append]
  simp [hw]

/-- C9: every run chooses exactly one tag out of the closed set
`java`, `go`, `node`, `python`, `unknown`; the bundle used by the run is a
function of that tag alone; every path the run writes is one of the four
fixed names inside the single output directory `.ci-generated/`; and after
a run the report file exists there whatever the prior state of the
filesystem was (the directory's creation with `exist_ok=True` is modelled
by writes landing in the map unconditionally). -/
theorem run_invariants (root : RootDir) (store : String → Option String) (env : Env) :
    (detect_language root).language ∈ (["java", "go", "node", "python", "unknown"] : List String) ∧
    (∀ root2 : RootDir, (detect_language root2).language = (detect_language root).language →
      runBundle root2 = runBundle root) ∧
    (∀ x ∈ main_run root store env,
      x.1 ∈ ([outDocker, outJenkins, outGitlab, outReport] : List String)) ∧
    (∀ fs : String → Option String,
      applyWrites (main_run root store env) fs outReport =
        some (String.intercalate "\n" (main_reportLines root store env))) := by
  refine ⟨?_, ?_, ?_, ?_⟩
  · rw [detect_language_lang]
    unfold markerTag
    split
    · decide
    · split
      · decide
      · split
        · decide
        · split
          · decide
          · decide
  · intro root2 he
    unfold runBundle
    rw [he]
  · intro x hx
    rw [main_run_eq] at hx
    rcases List.mem_append.mp hx with h1 | h1
    · rcases List.mem_append.mp h1 with h2 | h2
      · rcases List.mem_append.mp h2 with h3 | h3
        · rw [kindResult_fst store (runVars root env) (runBundle root).docker
            outDocker "docker" x h3]
          decide
        · rw [kindResult_fst store (runVars root env) (runBundle root).jenkins
            outJenkins "jenkins" x h3]
          decide
      · rw [kindResult_fst store (runVars root env) (runBundle root).gitlab
          outGitlab "gitlab" x h2]
        decide
    · have : x = (outReport, String.intercalate "\n" (main_reportLines root store env)) := by
        simpa using h1
      rw [this]
      simp
  · intro fs
    show applyWrites ((mainParts root store env).1 ++
      [(outReport, String.intercalate "\n" (main_reportLines root store env))]) fs outReport =
      some (String.intercalate "\n" (main_reportLines root store env))
    rw [applyWrites_eq,
      lastWrite_append_single (mainParts root store env).1
        (outReport, String.intercalate "\n" (main_reportLines root store env)) outReport rfl]

/-- C9 (witness): the invariants instantiated on a concrete go-only run
with no templates. -/
theorem run_invariants_witness :
    (detect_language rexGo).language ∈ (["java", "go", "node", "python", "unknown"] : List String) ∧
    runBundle rexGo = runBundle rexGo ∧
    (outReport, String.intercalate "\n" (main_reportLines rexGo storeEmpty envNone)).1 ∈
      ([outDocker, outJenkins, outGitlab, outReport] : List String) ∧
    applyWrites (main_run rexGo storeEmpty envNone) (fun _ => none) outReport =
      some (String.intercalate "\n" (main_reportLines rexGo storeEmpty envNone)) := by
  have h := run_invariants rexGo storeEmpty envNone
  refine ⟨h.1, h.2.1 rexGo rfl, ?_, h.2.2.2 (fun _ => none)⟩
  exact h.2.2.1 (outReport, String.intercalate "\n" (main_reportLines rexGo storeEmpty envNone))
    (by rw [main_run_eq]; simp)

/-- C8: detection never propagates auxiliary read/parse failures. The tag
depends only on the existence checks (first conjunct: two roots with the
same existence oracle get the same tag, whatever their reads and parses
do), and in every failure mode — read error, pattern not matching, JSON
parse error — the branch records its detail as absent and still returns
the detected tag. Totality of `detect_language` models that no exception
escapes. -/
theorem detect_aux_errors_contained (r1 r2 : RootDir) (hsame : r1.exists_ = r2.exists_) :
    (detect_language r1).language = (detect_language r2).language ∧
    (r1.exists_ "pom.xml" = true → r1.readText "pom.xml" = Except.error () →
      (detect_language r1).details = [("java_version", DetailValue.vnone)]) ∧
    (∀ content : String, r1.exists_ "pom.xml" = true →
      r1.readText "pom.xml" = Except.ok content →
      searchCapture "<maven.compiler.source>".data "</maven.compiler.source>".data content.data
        = none →
      searchCapture "<java.version>".data "</java.version>".data content.data = none →
      (detect_language r1).details = [("java_version", DetailValue.vnone)]) ∧
    (r1.exists_ "pom.xml" = false → r1.exists_ "build.gradle" = false →
      r1.exists_ "build.gradle.kts" = false → r1.exists_ "go.mod" = true →
      r1.readText "go.mod" = Except.error () →
      (detect_language r1).details = [("go_mod_first", DetailValue.vnone)]) ∧
    (r1.exists_ "pom.xml" = false → r1.exists_ "build.gradle" = false →
      r1.exists_ "build.gradle.kts" = false → r1.exists_ "go.mod" = false →
      r1.exists_ "package.json" = true →
      (r1.readText "package.json" = Except.error () ∨
        ∃ content : String, r1.readText "package.json" = Except.ok content ∧
          r1.parseJson content = Except.error ()) →
      (detect_language r1).details = nodeErrDetails) ∧
    (r1.exists_ "pom.xml" = false → r1.exists_ "build.gradle" = false →
      r1.exists_ "build.gradle.kts" = false → r1.exists_ "go.mod" = false →
      r1.exists_ "package.json" = false → r1.exists_ "pyproject.toml" = true →
      r1.readText "pyproject.toml" = Except.error () →
      (detect_language r1).details = [("python_requires", DetailValue.vnone)]) := by
  refine ⟨?_, ?_, ?_, ?_, ?_, ?_⟩
  · rw [detect_language_lang, detect_language_lang, hsame]
  · intro hp herr
    simp [detect_language, hp, herr]
  · intro content hp hok hs1 hs2
    simp [detect_language, hp, hok, hs1, hs2, optDetail]
  · intro h1 h2 h3 hgo herr
    simp [detect_language, h1, h2, h3, hgo, herr]
  · intro h1 h2 h3 h4 hpkg hbad
    rcases hbad with herr | ⟨content, hok, hparse⟩
    · simp [detect_language, h1, h2, h3, h4, hpkg, herr]
    · simp [detect_language, h1, h2, h3, h4, hpkg, hok, hparse]
  · intro h1 h2 h3 h4 h5 hpy herr
    simp [detect_language, h1, h2, h3, h4, h5, hpy, herr]

/-- C8 (witness): each failure mode exercised on a concrete root — java
read error, java pattern miss, go read error, node parse error, python
read error — each recording its detail as absent. -/
theorem detect_aux_errors_contained_witness :
    (detect_language rexJavaNode).details = [("java_version", DetailValue.vnone)] ∧
    (detect_language rexJavaNoMatch).details = [("java_version", DetailValue.vnone)] ∧
    (detect_language rexGo).details = [("go_mod_first", DetailValue.vnone)] ∧
    (detect_language rexNodeBad).details = nodeErrDetails ∧
    (detect_language rexPyErr).details = [("python_requires", DetailValue.vnone)] := by
  have hj := detect_aux_errors_contained rexJavaNode rexJavaNode rfl
  have hm := detect_aux_errors_contained rexJavaNoMatch rexJavaNoMatch rfl
  have hg := detect_aux_errors_contained rexGo rexGo rfl
  have hn := detect_aux_errors_contained rexNodeBad rexNodeBad rfl
  have hp := detect_aux_errors_contained rexPyErr rexPyErr rfl
  refine ⟨hj.2.1 rfl rfl,
    hm.2.2.1 "<project></project>" rfl rfl (by decide) (by decide),
    hg.2.2.2.1 rfl rfl rfl rfl rfl,
    hn.2.2.2.2.1 rfl rfl rfl rfl rfl (Or.inr ⟨"not json", rfl, rfl⟩),
    hp.2.2.2.2.2 rfl rfl rfl rfl rfl rfl rfl⟩

theorem detailStr_name_none (root : RootDir) (h : markerTag root.exists_ ≠ "node") :
    detailStr (detect_language root).details "name" = none := by
  unfold detect_language
  unfold markerTag at h
  split
  · split
    · split
      · rfl
      · rfl
    · rfl
  · split
    · rfl
    · split
      · simp_all
      · split
        · split
          · split
            · rfl
            · rfl
          · rfl
        · rfl

/-- C10: when detection yields no project-name detail — every non-node
ecosystem, and node projects whose `package.json` lacks a name or fails to
parse — the run's project name defaults to `local-project`; and when
`CI_REGISTRY_IMAGE` is unset or empty, `IMAGE_NAME` is
`<project name>:latest`, hence `local-project:latest` when both defaults
apply. -/
theorem default_project_and_image (root : RootDir) (env : Env) :
    ((detect_language root).language ≠ "node" →
      detailStr (detect_language root).details "name" = none) ∧
    (detailStr (detect_language root).details "name" = none →
      project_name_of (detect_language root) = "local-project") ∧
    ((env.ci_registry_image = none ∨ env.ci_registry_image = some "") →
      image_name_of (detect_language root) env =
        project_name_of (detect_language root) ++ ":latest") ∧
    (detailStr (detect_language root).details "name" = none →
      (env.ci_registry_image = none ∨ env.ci_registry_image = some "") →
      image_name_of (detect_language root) env = "local-project:latest") := by
  have himg : (env.ci_registry_image = none ∨ env.ci_registry_image = some "") →
      image_name_of (detect_language root) env =
        project_name_of (detect_language root) ++ ":latest" := by
    intro h
    unfold image_name_of
    rcases h with h | h
    · rw [h]
      rfl
    · rw [h]
      simp [pyOrStr]
  have hname : detailStr (detect_language root).details "name" = none →
      project_name_of (detect_language root) = "local-project" := by
    intro h
    unfold project_name_of
    rw [h]
    rfl
  refine ⟨?_, hname, himg, ?_⟩
  · intro h
    exact detailStr_name_none root (by rw [← detect_language_lang]; exact h)
  · intro h1 h2
    rw [himg h2, hname h1]
    decide

/-- C10 (witness): a go project (no name detail) with no environment
overrides gets `local-project` and `local-project:latest`; a node project
with an unparsable `package.json` likewise defaults. -/
theorem default_project_and_image_witness :
    detailStr (detect_language rexGo).details "name" = none ∧
    project_name_of (detect_language rexGo) = "local-project" ∧
    image_name_of (detect_language rexGo) envNone = "local-project:latest" ∧
    project_name_of (detect_language rexNodeBad) = "local-project" := by
  have hg := default_project_and_image rexGo envNone
  have hn := default_project_and_image rexNodeBad envNone
  have h1 : detailStr (detect_language rexGo).details "name" = none :=
    hg.1 (by decide)
  refine ⟨h1, hg.2.1 h1, hg.2.2.2 h1 (Or.inl rfl), hn.2.1 (by decide)⟩
